import Mathlib

/-!
Shallow embedding of `v3/crates/execute/src/plan/model_selection.rs`
(NDC query generation from the `ModelSelection` IR).

External collaborators (field-selection planner, filter planner,
relationship discovery, argument planner) live outside this file's source;
they are passed in as explicit functions, with the Rust `&mut` state
(relationship registry, monotonic join-id counter) threaded explicitly.
External opaque data (selection trees, filter clauses, arguments,
relationship definitions, error values) are type parameters.
-/

namespace ModelSelectionPlan

/-- NDC protocol expression. The core under verification only ever builds
the conjunction variant; `atom` stands for any expression produced by the
external filter planner. -/
inductive Expression where
  | and (expressions : List Expression)
  | atom (id : Nat)


/-- Abstract stand-in for NDC relationship-argument values; this core never
constructs one (order-by path hops always carry an empty arguments map). -/
inductive RelationshipArgument where
  | mk (id : Nat)


/-- NDC `PathElement`: one relationship hop of an order-by target path. -/
structure PathElement where
  relationship : String
  arguments : List (String × RelationshipArgument)
  predicate : Option Expression


/-- NDC `OrderByTarget`. The source only constructs the `Column` variant. -/
inductive NdcOrderByTarget where
  | column (name : String) (path : List PathElement)
      (field_path : Option (List String))


/-- NDC `OrderDirection`. -/
inductive NdcOrderDirection where
  | asc
  | desc


/-- NDC `OrderByElement`. -/
structure NdcOrderByElement where
  order_direction : NdcOrderDirection
  target : NdcOrderByTarget


/-- NDC `OrderBy`. -/
structure NdcOrderBy where
  elements : List NdcOrderByElement


/-- NDC `Aggregate` descriptor: the three shapes the translator can emit. -/
inductive Aggregate where
  | columnCount (column : String) (field_path : Option (List String))
      (distinct : Bool)
  | singleColumn (column : String) (field_path : Option (List String))
      (function : String)
  | starCount


/-- IR `ModelOrderByDirection`. -/
inductive ModelOrderByDirection where
  | asc
  | desc


/-- IR `OrderByTarget`: a column, optionally reached through an ordered
relationship path. -/
inductive OrderByTarget where
  | column (name : String) (relationship_path : List String)


/-- IR `OrderByElement`. -/
structure OrderByElement where
  order_direction : ModelOrderByDirection
  target : OrderByTarget


/-- The IR ordering clause: carries the ordered list of order-by elements
(`ResolvedOrderBy.order_by_elements`). -/
structure ResolvedOrderBy where
  order_by_elements : List OrderByElement


/-- Rust `nonempty::NonEmpty`: a guaranteed non-empty sequence. -/
structure NonEmpty (α : Type) where
  head : α
  tail : List α


/-- IR `AggregateFieldSelection`: count with an optional (possibly empty)
column path, distinct count, or a named aggregation function over a
non-empty column path. -/
inductive AggregateFieldSelection where
  | count (column_path : List String)
  | countDistinct (column_path : List String)
  | aggregationFunction (function_name : String)
      (column_path : NonEmpty String)


/-- IR `AggregateSelectionSet`: an insertion-ordered map (Rust `IndexMap`)
from output field name to aggregate selection, modelled as an ordered
association list. -/
structure AggregateSelectionSet where
  fields : List (String × AggregateFieldSelection)


/-- NDC protocol version advertised by the connector.
Modelled from the spec: the connector descriptor carries a protocol
capability/version that is only passed through to the collaborators. -/
inductive NdcVersion where
  | v01
  | v02


/-- Connector capabilities (only the supported protocol version is used). -/
structure Capabilities where
  supported_ndc_version : NdcVersion


/-- Connector descriptor (`ir.data_connector`). -/
structure DataConnector where
  capabilities : Capabilities


/-- The relationship registry: Rust `BTreeMap<RelationshipName,
Relationship>` with relationship definitions of type `R`, modelled as an
association list threaded through the planners. -/
def Registry (R : Type) : Type := List (String × R)

instance (R : Type) [DecidableEq R] : DecidableEq (Registry R) := by
  unfold Registry; infer_instance

/-- Join placeholder tree. Modelled from the spec: `JoinLocations` (from
`remote_joins::types`, outside this source) records positions in the output
tree where remote joins of type `J` must be spliced; `JoinLocations::new()`
creates the empty tree. -/
structure JoinLocations (J : Type) where
  locations : List (String × J)


/-- `JoinLocations::new()`: the empty join placeholder tree. -/
def JoinLocations.new {J : Type} : JoinLocations J := { locations := [] }

/-- Abstract stand-in for the NDC grouping specification; this core never
constructs one (`groups` is always left absent). -/
inductive Grouping where
  | mk (id : Nat)


/-- Abstract stand-in for query variables; this core always leaves the
variables slot absent. -/
inductive QueryVariables where
  | mk (id : Nat)


/-- IR `ModelSelection` node: `S` is the opaque field-selection tree, `A`
the opaque arguments mapping, `P` the opaque filter clause. -/
structure ModelSelection (S A P : Type) where
  collection : String
  data_connector : DataConnector
  selection : Option S
  aggregate_selection : Option AggregateSelectionSet
  filter_clause : P
  order_by : Option ResolvedOrderBy
  limit : Option Nat
  offset : Option Nat
  arguments : A

/-- Output `QueryNode`: `F` is the opaque fields map produced by the
external field-selection planner. -/
structure QueryNode (F : Type) where
  limit : Option Nat
  offset : Option Nat
  order_by : Option NdcOrderBy
  predicate : Option Expression
  aggregates : Option (List (String × Aggregate))
  fields : Option F
  groups : Option Grouping

/-- Output `QueryExecutionPlan`: `F` the opaque fields map, `NA` the
translated arguments, `R` the relationship definition type. -/
structure QueryExecutionPlan (F NA R : Type) where
  query_node : QueryNode F
  collection : String
  arguments : NA
  collection_relationships : Registry R
  «variables» : Option QueryVariables
  data_connector : DataConnector

/-- The four external collaborators, with the Rust in-place mutation of the
registry and counter made explicit: each returns the updated state. -/
structure PlanDelegates (S F J A P NA R E : Type) where
  plan_selection_set : S → Nat → NdcVersion → Registry R →
      Except E ((F × JoinLocations J) × Registry R × Nat)
  plan_filter_expression : P → Registry R →
      Except E (Option Expression × Registry R)
  collect_relationships : ModelSelection S A P → Registry R →
      Except E (Registry R)
  plan_ndc_arguments : A → NdcVersion → Registry R →
      Except E (NA × Registry R)

/-- `ndc_count_aggregate`: empty column path yields a star count; a
non-empty path `first :: remaining` yields a column count on `first` with
the remaining path as nested field path (absent when empty). -/
def ndc_count_aggregate (column_path : List String) (distinct : Bool) :
    Aggregate :=
  match column_path with
  | first_path_element :: remaining_path =>
      let nested_field_path :=
        if remaining_path.isEmpty then none else some remaining_path
      Aggregate.columnCount first_path_element nested_field_path distinct
  | [] => Aggregate.starCount

/-- `ndc_aggregates`: translate an aggregate selection set entrywise,
keeping the field names and their order. -/
def ndc_aggregates (aggregate_selection_set : AggregateSelectionSet) :
    List (String × Aggregate) :=
  aggregate_selection_set.fields.map (fun entry =>
    let aggregate :=
      match entry.2 with
      | AggregateFieldSelection.count column_path =>
          ndc_count_aggregate column_path false
      | AggregateFieldSelection.countDistinct column_path =>
          ndc_count_aggregate column_path true
      | AggregateFieldSelection.aggregationFunction function_name
          column_path =>
          let nested_field_path := column_path.tail
          Aggregate.singleColumn column_path.head
            (if nested_field_path.isEmpty then none
             else some nested_field_path)
            function_name
    (entry.1, aggregate))

/-- `ndc_order_by_target`: a column target becomes an NDC column target
with one path hop per relationship in traversal order; every hop carries
an empty arguments map and a trivially-true (empty `And`) predicate, and
the nested field path is always absent. -/
def ndc_order_by_target (target : OrderByTarget) : NdcOrderByTarget :=
  match target with
  | OrderByTarget.column name relationship_path =>
      let order_by_element_path := relationship_path.map (fun path =>
        { relationship := path
          arguments := []
          predicate := some (Expression.and []) : PathElement })
      NdcOrderByTarget.column name order_by_element_path none

/-- `ndc_order_by`: translate the element list in order, mapping each
direction across and translating each target. -/
def ndc_order_by (order_by_elements : List OrderByElement) : NdcOrderBy :=
  { elements := order_by_elements.map (fun element =>
      { order_direction :=
          match element.order_direction with
          | ModelOrderByDirection.asc => NdcOrderDirection.asc
          | ModelOrderByDirection.desc => NdcOrderDirection.desc
        target := ndc_order_by_target element.target }) }

section Planner

variable {S F J A P NA R E : Type}

/-- `plan_query_node`: build one NDC `Query` node from a `ModelSelection`
IR node. If the node carries a field selection, the external
selection-set planner runs first (threading the registry and the join-id
counter and producing the fields map and the join placeholder subtree);
otherwise the fields stay absent and the placeholder tree stays empty.
Aggregates and ordering are translated by the pure translators, the filter
clause by the external filter planner, and limit and offset are copied;
`groups` is left unset. Any delegate failure is returned as-is. -/
def plan_query_node (d : PlanDelegates S F J A P NA R E)
    (ir : ModelSelection S A P) (relationships : Registry R)
    (join_id_counter : Nat) :
    Except E ((QueryNode F × JoinLocations J) × Registry R × Nat) :=
  match
    (match ir.selection with
     | none =>
         Except.ok ((none, JoinLocations.new), relationships,
           join_id_counter)
     | some selection =>
         match d.plan_selection_set selection join_id_counter
             ir.data_connector.capabilities.supported_ndc_version
             relationships with
         | Except.error e => Except.error e
         | Except.ok ((fields, locations), relationships1, counter1) =>
             Except.ok ((some fields, locations), relationships1,
               counter1)) with
  | Except.error e => Except.error e
  | Except.ok ((query_fields, join_locations), relationships1, counter1) =>
      let aggregates := ir.aggregate_selection.map ndc_aggregates
      match d.plan_filter_expression ir.filter_clause relationships1 with
      | Except.error e => Except.error e
      | Except.ok (predicate, relationships2) =>
          let query_node : QueryNode F :=
            { limit := ir.limit
              offset := ir.offset
              order_by := ir.order_by.map (fun x =>
                ndc_order_by x.order_by_elements)
              predicate := predicate
              aggregates := aggregates
              fields := query_fields
              groups := none }
          Except.ok ((query_node, join_locations), relationships2,
            counter1)

/-- `plan_query_execution`: run relationship discovery into a fresh (empty)
registry, build the root query node, translate the connector arguments,
and assemble the final `QueryExecutionPlan` (variables always absent)
together with the join placeholder tree. Any delegate failure is
returned as-is. -/
def plan_query_execution (d : PlanDelegates S F J A P NA R E)
    (ir : ModelSelection S A P) (join_id_counter : Nat) :
    Except E ((QueryExecutionPlan F NA R × JoinLocations J) × Nat) :=
  match d.collect_relationships ir ([] : Registry R) with
  | Except.error e => Except.error e
  | Except.ok collection_relationships =>
      match plan_query_node d ir collection_relationships
          join_id_counter with
      | Except.error e => Except.error e
      | Except.ok ((query, join_locations), relationships1, counter1) =>
          match d.plan_ndc_arguments ir.arguments
              ir.data_connector.capabilities.supported_ndc_version
              relationships1 with
          | Except.error e => Except.error e
          | Except.ok (arguments, relationships2) =>
              let execution_node : QueryExecutionPlan F NA R :=
                { query_node := query
                  collection := ir.collection
                  arguments := arguments
                  collection_relationships := relationships2
                  «variables» := none
                  data_connector := ir.data_connector }
              Except.ok ((execution_node, join_locations), counter1)

end Planner

/-- Helper: the aggregate translator preserves the number of entries. -/
theorem ndc_aggregates_length (s : AggregateSelectionSet) :
    (ndc_aggregates s).length = s.fields.length := by
  simp [ndc_aggregates]

/-- Helper: the order-by translator preserves the number of elements. -/
theorem ndc_order_by_length (l : List OrderByElement) :
    (ndc_order_by l).elements.length = l.length := by
  simp [ndc_order_by]

/-- C1: translating an order-by column target yields a column target with
the same column name and an absent nested field path; the emitted path has
one hop per input relationship, in the same order, and every hop carries an
empty arguments map and an empty-conjunction (trivially true) predicate. -/
theorem order_by_target_column_translation (name : String)
    (relationship_path : List String) :
    ∃ path,
      ndc_order_by_target (OrderByTarget.column name relationship_path) =
        NdcOrderByTarget.column name path none ∧
      path.map PathElement.relationship = relationship_path ∧
      ∀ e ∈ path, e.arguments = [] ∧
        e.predicate = some (Expression.and []) := by
  refine ⟨relationship_path.map (fun path =>
    { relationship := path
      arguments := []
      predicate := some (Expression.and []) }), rfl, ?_, ?_⟩
  · rw [List.map_map]
    exact List.map_id relationship_path
  · intro e he
    simp only [List.mem_map] at he
    obtain ⟨r, _, rfl⟩ := he
    exact ⟨rfl, rfl⟩

/-- C1 witness at a concrete target with a two-hop relationship path. -/
theorem order_by_target_column_translation_witness :
    ∃ path,
      ndc_order_by_target (OrderByTarget.column "age" ["R1", "R2"]) =
        NdcOrderByTarget.column "age" path none ∧
      path.map PathElement.relationship = ["R1", "R2"] ∧
      ∀ e ∈ path, e.arguments = [] ∧
        e.predicate = some (Expression.and []) :=
  order_by_target_column_translation "age" ["R1", "R2"]

/-- C2: the aggregate translator emits a map with exactly the same keys as
the input selection set's field map, in the same order. -/
theorem ndc_aggregates_preserves_keys (s : AggregateSelectionSet) :
    (ndc_aggregates s).map Prod.fst = s.fields.map Prod.fst := by
  simp [ndc_aggregates]

/-- C3: a Count selection with an empty column path translates to a star
count; with a non-empty path it translates to a column count on the head
with the tail as nested field path (absent when the tail is empty) and
distinct = false; CountDistinct uses the same construction with
distinct = true. -/
theorem count_aggregate_translation (s : AggregateSelectionSet) (i : Nat)
    (h : i < s.fields.length) :
    (∀ name cp,
      s.fields.get ⟨i, h⟩ = (name, AggregateFieldSelection.count cp) →
      (ndc_aggregates s).get
          ⟨i, by rw [ndc_aggregates_length]; exact h⟩ =
        (name, ndc_count_aggregate cp false)) ∧
    (∀ name cp,
      s.fields.get ⟨i, h⟩ =
          (name, AggregateFieldSelection.countDistinct cp) →
      (ndc_aggregates s).get
          ⟨i, by rw [ndc_aggregates_length]; exact h⟩ =
        (name, ndc_count_aggregate cp true)) ∧
    ndc_count_aggregate [] false = Aggregate.starCount ∧
    ndc_count_aggregate [] true = Aggregate.starCount ∧
    (∀ c0 rest distinct,
      ndc_count_aggregate (c0 :: rest) distinct =
        Aggregate.columnCount c0
          (if rest = [] then none else some rest) distinct) := by
  refine ⟨?_, ?_, rfl, rfl, ?_⟩
  · intro name cp he
    simp only [List.get_eq_getElem] at he
    simp [ndc_aggregates, List.getElem_map, he]
  · intro name cp he
    simp only [List.get_eq_getElem] at he
    simp [ndc_aggregates, List.getElem_map, he]
  · intro c0 rest distinct
    cases rest <;> simp [ndc_count_aggregate]

/-- C3 witness at a concrete selection set holding a Count with an empty
path and a CountDistinct with a two-element path. -/
theorem count_aggregate_translation_witness :
    (ndc_aggregates
        { fields := [("total", AggregateFieldSelection.count []),
            ("uniq", AggregateFieldSelection.countDistinct
              ["address", "zip"])] }).get ⟨0, by decide⟩ =
      ("total", ndc_count_aggregate [] false) ∧
    ndc_count_aggregate [] false = Aggregate.starCount ∧
    ndc_count_aggregate ["address", "zip"] true =
      Aggregate.columnCount "address" (some ["zip"]) true := by
  have h := count_aggregate_translation
    { fields := [("total", AggregateFieldSelection.count []),
        ("uniq", AggregateFieldSelection.countDistinct
          ["address", "zip"])] } 0 (by decide)
  exact ⟨h.1 "total" [] rfl, h.2.2.1,
    (h.2.2.2.2 "address" ["zip"] true).trans (by simp)⟩

/-- C4: an AggregationFunction selection with function fn and non-empty
column path translates, at the same position of the output map, to a
single-column aggregate on the path's head with the tail as nested field
path (absent when empty) and function identifier fn. -/
theorem aggregation_function_translation (s : AggregateSelectionSet)
    (i : Nat) (h : i < s.fields.length) (name fn c0 : String)
    (tail : List String)
    (he : s.fields.get ⟨i, h⟩ =
      (name, AggregateFieldSelection.aggregationFunction fn
        { head := c0, tail := tail })) :
    (ndc_aggregates s).get ⟨i, by rw [ndc_aggregates_length]; exact h⟩ =
      (name, Aggregate.singleColumn c0
        (if tail = [] then none else some tail) fn) := by
  simp only [List.get_eq_getElem] at he
  cases tail <;> simp [ndc_aggregates, List.getElem_map, he]

/-- C4 witness at a concrete max aggregation over a nested column path. -/
theorem aggregation_function_translation_witness :
    (ndc_aggregates
        { fields := [("m", AggregateFieldSelection.aggregationFunction
            "max" { head := "address", tail := ["zip"] })] }).get
        ⟨0, by decide⟩ =
      ("m", Aggregate.singleColumn "address" (some ["zip"]) "max") := by
  have h := aggregation_function_translation
    { fields := [("m", AggregateFieldSelection.aggregationFunction
        "max" { head := "address", tail := ["zip"] })] }
    0 (by decide) "m" "max" "address" ["zip"] rfl
  simpa using h

/-- C5: the order-by translator emits a sequence of the same length, and
the element at each position carries the direction of the input element at
that position (ascending to ascending, descending to descending) and the
translated target of that same input element. -/
theorem order_by_translation (order_by_elements : List OrderByElement) :
    (ndc_order_by order_by_elements).elements.length =
      order_by_elements.length ∧
    ∀ i (h : i < order_by_elements.length),
      (ndc_order_by order_by_elements).elements.get
          ⟨i, by rw [ndc_order_by_length]; exact h⟩ =
        { order_direction :=
            match (order_by_elements.get ⟨i, h⟩).order_direction with
            | ModelOrderByDirection.asc => NdcOrderDirection.asc
            | ModelOrderByDirection.desc => NdcOrderDirection.desc
          target := ndc_order_by_target
            (order_by_elements.get ⟨i, h⟩).target } := by
  refine ⟨ndc_order_by_length order_by_elements, ?_⟩
  intro i h
  simp [ndc_order_by, List.getElem_map]

/-- C5 witness at a concrete descending element with a one-hop path. -/
theorem order_by_translation_witness :
    (ndc_order_by [⟨ModelOrderByDirection.desc,
        OrderByTarget.column "age" ["R1"]⟩]).elements.get
        ⟨0, by rw [ndc_order_by_length]; decide⟩ =
      ⟨NdcOrderDirection.desc,
        ndc_order_by_target (OrderByTarget.column "age" ["R1"])⟩ :=
  (order_by_translation [⟨ModelOrderByDirection.desc,
      OrderByTarget.column "age" ["R1"]⟩]).2 0 (by decide)

section PlannerTheorems

variable {S F J A P NA R E : Type}

/-- Helper: inversion of a successful `plan_query_node` run — the produced
node always has the canonical shape assembled at the end of the function:
limit and offset copied from the IR, ordering and aggregates produced by
the pure translators, and `groups` unset. -/
theorem plan_query_node_ok_shape (d : PlanDelegates S F J A P NA R E)
    (ir : ModelSelection S A P) (relationships : Registry R)
    (join_id_counter : Nat)
    (out : (QueryNode F × JoinLocations J) × Registry R × Nat)
    (h : plan_query_node d ir relationships join_id_counter =
      Except.ok out) :
    ∃ query_fields join_locations predicate relationships2 counter1,
      out = (({ limit := ir.limit
                offset := ir.offset
                order_by := ir.order_by.map (fun x =>
                  ndc_order_by x.order_by_elements)
                predicate := predicate
                aggregates := ir.aggregate_selection.map ndc_aggregates
                fields := query_fields
                groups := none }, join_locations),
             relationships2, counter1) := by
  unfold plan_query_node at h
  split at h
  · simp at h
  · split at h
    · simp at h
    · injection h with h
      subst h
      exact ⟨_, _, _, _, _, rfl⟩

/-- Helper: inversion of a successful `plan_query_execution` run — each
stage succeeded in order and the plan is assembled from their outputs. -/
theorem plan_query_execution_ok_shape (d : PlanDelegates S F J A P NA R E)
    (ir : ModelSelection S A P) (join_id_counter : Nat)
    (out : (QueryExecutionPlan F NA R × JoinLocations J) × Nat)
    (h : plan_query_execution d ir join_id_counter = Except.ok out) :
    ∃ rel1 query join_locations rel2 counter1 arguments rel3,
      d.collect_relationships ir ([] : Registry R) = Except.ok rel1 ∧
      plan_query_node d ir rel1 join_id_counter =
        Except.ok ((query, join_locations), rel2, counter1) ∧
      d.plan_ndc_arguments ir.arguments
          ir.data_connector.capabilities.supported_ndc_version rel2 =
        Except.ok (arguments, rel3) ∧
      out = (({ query_node := query
                collection := ir.collection
                arguments := arguments
                collection_relationships := rel3
                «variables» := none
                data_connector := ir.data_connector }, join_locations),
             counter1) := by
  unfold plan_query_execution at h
  split at h
  · simp at h
  · rename_i hc
    split at h
    · simp at h
    · rename_i hn
      split at h
      · simp at h
      · rename_i ha
        injection h with h
        subst h
        exact ⟨_, _, _, _, _, _, _, hc, hn, ha, rfl⟩

end PlannerTheorems

/-- Trivially succeeding collaborators over unit payload types, used to
run the planner on concrete inputs. -/
def unitDelegates : PlanDelegates Unit Unit Unit Unit Unit Unit Unit Nat
    where
  plan_selection_set := fun _ c _ r =>
    Except.ok (((), JoinLocations.new), r, c)
  plan_filter_expression := fun _ r => Except.ok (none, r)
  collect_relationships := fun _ r => Except.ok r
  plan_ndc_arguments := fun _ _ r => Except.ok ((), r)

/-- Collaborators that always fail, used to exercise error propagation. -/
def failingDelegates : PlanDelegates Unit Unit Unit Unit Unit Unit Unit Nat
    where
  plan_selection_set := fun _ _ _ _ => Except.error 1
  plan_filter_expression := fun _ _ => Except.error 2
  collect_relationships := fun _ _ => Except.error 3
  plan_ndc_arguments := fun _ _ _ => Except.error 4

/-- A concrete IR node carrying a field selection. -/
def sampleIR : ModelSelection Unit Unit Unit where
  collection := "artists"
  data_connector :=
    { capabilities := { supported_ndc_version := NdcVersion.v01 } }
  selection := some ()
  aggregate_selection := none
  filter_clause := ()
  order_by := none
  limit := some 10
  offset := some 5
  arguments := ()

/-- The sample IR node with its field selection removed. -/
def sampleIRNoSelection : ModelSelection Unit Unit Unit :=
  { sampleIR with selection := none }

/-- The node builder's output on `sampleIR` with the unit collaborators. -/
def sampleNodeOut :
    (QueryNode Unit × JoinLocations Unit) × Registry Unit × Nat :=
  (({ limit := some 10
      offset := some 5
      order_by := none
      predicate := none
      aggregates := none
      fields := some ()
      groups := none }, JoinLocations.new), [], 0)

/-- The node builder's output on `sampleIRNoSelection`. -/
def sampleNodeOutNoSel :
    (QueryNode Unit × JoinLocations Unit) × Registry Unit × Nat :=
  (({ limit := some 10
      offset := some 5
      order_by := none
      predicate := none
      aggregates := none
      fields := none
      groups := none }, JoinLocations.new), [], 0)

/-- The assembler's output on `sampleIR` with the unit collaborators. -/
def samplePlanOut :
    (QueryExecutionPlan Unit Unit Unit × JoinLocations Unit) × Nat :=
  (({ query_node :=
        { limit := some 10
          offset := some 5
          order_by := none
          predicate := none
          aggregates := none
          fields := some ()
          groups := none }
      collection := "artists"
      arguments := ()
      collection_relationships := []
      «variables» := none
      data_connector :=
        { capabilities := { supported_ndc_version := NdcVersion.v01 } } },
    JoinLocations.new), 0)

section ClaimTheorems

variable {S F J A P NA R E : Type}

/-- C6: whenever the query node builder succeeds, the produced node's
limit and offset equal the input IR node's limit and offset. -/
theorem query_node_limit_offset_passthrough
    (d : PlanDelegates S F J A P NA R E) (ir : ModelSelection S A P)
    (relationships : Registry R) (join_id_counter : Nat)
    (out : (QueryNode F × JoinLocations J) × Registry R × Nat)
    (h : plan_query_node d ir relationships join_id_counter =
      Except.ok out) :
    out.1.1.limit = ir.limit ∧ out.1.1.offset = ir.offset := by
  obtain ⟨qf, jl, p, r2, c1, rfl⟩ :=
    plan_query_node_ok_shape d ir relationships join_id_counter out h
  exact ⟨rfl, rfl⟩

/-- C7: a failure of any delegate (field-selection planner, filter
planner, relationship discovery, or argument planner) makes the node
builder, respectively the plan assembler, return exactly that error — the
`Except` result carries either a complete value or the propagated error,
never a partial one. -/
theorem error_propagation (d : PlanDelegates S F J A P NA R E)
    (ir : ModelSelection S A P) (relationships : Registry R)
    (join_id_counter : Nat) :
    (∀ s e, ir.selection = some s →
      d.plan_selection_set s join_id_counter
          ir.data_connector.capabilities.supported_ndc_version
          relationships = Except.error e →
      plan_query_node d ir relationships join_id_counter =
        Except.error e) ∧
    (∀ e, ir.selection = none →
      d.plan_filter_expression ir.filter_clause relationships =
        Except.error e →
      plan_query_node d ir relationships join_id_counter =
        Except.error e) ∧
    (∀ s fl rel1 ctr1 e, ir.selection = some s →
      d.plan_selection_set s join_id_counter
          ir.data_connector.capabilities.supported_ndc_version
          relationships = Except.ok (fl, rel1, ctr1) →
      d.plan_filter_expression ir.filter_clause rel1 = Except.error e →
      plan_query_node d ir relationships join_id_counter =
        Except.error e) ∧
    (∀ e, d.collect_relationships ir ([] : Registry R) = Except.error e →
      plan_query_execution d ir join_id_counter = Except.error e) ∧
    (∀ rel1 e,
      d.collect_relationships ir ([] : Registry R) = Except.ok rel1 →
      plan_query_node d ir rel1 join_id_counter = Except.error e →
      plan_query_execution d ir join_id_counter = Except.error e) ∧
    (∀ rel1 nodeOut e,
      d.collect_relationships ir ([] : Registry R) = Except.ok rel1 →
      plan_query_node d ir rel1 join_id_counter = Except.ok nodeOut →
      d.plan_ndc_arguments ir.arguments
          ir.data_connector.capabilities.supported_ndc_version
          nodeOut.2.1 = Except.error e →
      plan_query_execution d ir join_id_counter = Except.error e) := by
  refine ⟨?_, ?_, ?_, ?_, ?_, ?_⟩
  · intro s e hsel hps
    simp [plan_query_node, hsel, hps]
  · intro e hsel hfe
    simp [plan_query_node, hsel, hfe]
  · intro s fl rel1 ctr1 e hsel hps hfe
    obtain ⟨fields, locations⟩ := fl
    simp [plan_query_node, hsel, hps, hfe]
  · intro e hc
    simp [plan_query_execution, hc]
  · intro rel1 e hc hn
    simp [plan_query_execution, hc, hn]
  · intro rel1 nodeOut e hc hn ha
    obtain ⟨⟨query, join_locations⟩, rel2, ctr1⟩ := nodeOut
    simp only at ha
    simp [plan_query_execution, hc, hn, ha]

/-- C8: whenever `plan_query_execution` succeeds, the produced execution
plan holds the root query node built by the node builder, the IR's
collection identifier, the arguments translated by the argument planner,
the relationship registry as accumulated through discovery, node building
and argument planning, an absent variables slot, and the IR's connector
reference. -/
theorem execution_plan_assembly (d : PlanDelegates S F J A P NA R E)
    (ir : ModelSelection S A P) (join_id_counter : Nat)
    (out : (QueryExecutionPlan F NA R × JoinLocations J) × Nat)
    (h : plan_query_execution d ir join_id_counter = Except.ok out) :
    ∃ rel1 query join_locations rel2 counter1 arguments rel3,
      d.collect_relationships ir ([] : Registry R) = Except.ok rel1 ∧
      plan_query_node d ir rel1 join_id_counter =
        Except.ok ((query, join_locations), rel2, counter1) ∧
      d.plan_ndc_arguments ir.arguments
          ir.data_connector.capabilities.supported_ndc_version rel2 =
        Except.ok (arguments, rel3) ∧
      out = (({ query_node := query
                collection := ir.collection
                arguments := arguments
                collection_relationships := rel3
                «variables» := none
                data_connector := ir.data_connector }, join_locations),
             counter1) :=
  plan_query_execution_ok_shape d ir join_id_counter out h

/-- C9: whenever the node builder (or the assembler, for its root node)
succeeds, the produced query node's `groups` field is absent — nothing in
this compiler ever populates it. -/
theorem groups_always_absent (d : PlanDelegates S F J A P NA R E)
    (ir : ModelSelection S A P) (relationships : Registry R)
    (join_id_counter : Nat) :
    (∀ out, plan_query_node d ir relationships join_id_counter =
        Except.ok out →
      out.1.1.groups = none) ∧
    (∀ pout, plan_query_execution d ir join_id_counter =
        Except.ok pout →
      pout.1.1.query_node.groups = none) := by
  constructor
  · intro out h
    obtain ⟨qf, jl, p, r2, c1, rfl⟩ :=
      plan_query_node_ok_shape d ir relationships join_id_counter out h
    rfl
  · intro pout h
    obtain ⟨rel1, query, jl, rel2, c1, args, rel3, hc, hn, ha, rfl⟩ :=
      plan_query_execution_ok_shape d ir join_id_counter pout h
    obtain ⟨qf, jl2, p, r2, c2, heq⟩ :=
      plan_query_node_ok_shape d ir rel1 join_id_counter _ hn
    have hg := congrArg (fun t => t.1.1.groups) heq
    simpa using hg

/-- C10: when the IR node carries no field selection, a successful node
build returns an absent fields map together with the empty join
placeholder tree; when it does carry one, the returned placeholder tree is
exactly the one produced by the field-selection planner. -/
theorem no_selection_no_fields (d : PlanDelegates S F J A P NA R E)
    (ir : ModelSelection S A P) (relationships : Registry R)
    (join_id_counter : Nat) :
    (∀ out, ir.selection = none →
      plan_query_node d ir relationships join_id_counter =
        Except.ok out →
      out.1.1.fields = none ∧ out.1.2 = JoinLocations.new) ∧
    (∀ s fields locations rel1 ctr1 out, ir.selection = some s →
      d.plan_selection_set s join_id_counter
          ir.data_connector.capabilities.supported_ndc_version
          relationships = Except.ok ((fields, locations), rel1, ctr1) →
      plan_query_node d ir relationships join_id_counter =
        Except.ok out →
      out.1.2 = locations) := by
  constructor
  · intro out hsel h
    cases hfe : d.plan_filter_expression ir.filter_clause relationships
      with
    | error e => simp [plan_query_node, hsel, hfe] at h
    | ok pr =>
        obtain ⟨predicate, relationships2⟩ := pr
        simp [plan_query_node, hsel, hfe] at h
        subst h
        exact ⟨rfl, rfl⟩
  · intro s fields locations rel1 ctr1 out hsel hps h
    cases hfe : d.plan_filter_expression ir.filter_clause rel1 with
    | error e => simp [plan_query_node, hsel, hps, hfe] at h
    | ok pr =>
        obtain ⟨predicate, relationships2⟩ := pr
        simp [plan_query_node, hsel, hps, hfe] at h
        subst h
        rfl

end ClaimTheorems

/-- C6 witness: on the sample IR (limit 10, offset 5) with the unit
collaborators, the built node carries limit 10 and offset 5. -/
theorem query_node_limit_offset_passthrough_witness :
    sampleNodeOut.1.1.limit = some 10 ∧
    sampleNodeOut.1.1.offset = some 5 :=
  query_node_limit_offset_passthrough unitDelegates sampleIR
    ([] : Registry Unit) 0 sampleNodeOut rfl

/-- C7 witness: the failing collaborators' errors come back verbatim from
the node builder (selection and filter stages) and the assembler
(discovery stage). -/
theorem error_propagation_witness :
    plan_query_node failingDelegates sampleIR ([] : Registry Unit) 0 =
      Except.error 1 ∧
    plan_query_node failingDelegates sampleIRNoSelection
        ([] : Registry Unit) 0 =
      Except.error 2 ∧
    plan_query_execution failingDelegates sampleIR 0 =
      Except.error 3 := by
  refine ⟨?_, ?_, ?_⟩
  · exact (error_propagation failingDelegates sampleIR
      ([] : Registry Unit) 0).1 () 1 rfl rfl
  · exact (error_propagation failingDelegates sampleIRNoSelection
      ([] : Registry Unit) 0).2.1 2 rfl rfl
  · exact (error_propagation failingDelegates sampleIR
      ([] : Registry Unit) 0).2.2.2.1 3 rfl

/-- C8 witness: on the sample IR with the unit collaborators, the
assembled plan carries the IR's collection and an absent variables slot. -/
theorem execution_plan_assembly_witness :
    samplePlanOut.1.1.collection = "artists" ∧
    samplePlanOut.1.1.«variables» = none := by
  obtain ⟨rel1, query, jl, rel2, c1, args, rel3, hc, hn, ha, hout⟩ :=
    execution_plan_assembly unitDelegates sampleIR 0 samplePlanOut rfl
  rw [hout]
  exact ⟨rfl, rfl⟩

/-- C9 witness: on the sample IR with the unit collaborators, both the
built node's and the assembled plan's root node's `groups` are absent. -/
theorem groups_always_absent_witness :
    sampleNodeOut.1.1.groups = none ∧
    samplePlanOut.1.1.query_node.groups = none := by
  have h := groups_always_absent unitDelegates sampleIR
    ([] : Registry Unit) 0
  exact ⟨h.1 sampleNodeOut rfl, h.2 samplePlanOut rfl⟩

/-- C10 witness: on the sample IR without a field selection, the built
node's fields map is absent and the placeholder tree is empty. -/
theorem no_selection_no_fields_witness :
    sampleNodeOutNoSel.1.1.fields = none ∧
    sampleNodeOutNoSel.1.2 = JoinLocations.new :=
  (no_selection_no_fields unitDelegates sampleIRNoSelection
    ([] : Registry Unit) 0).1 sampleNodeOutNoSel rfl rfl

end ModelSelectionPlan
